import Mathlib

/-!
Shallow embedding of the real-time rendering/timing core of the StrideLine
pace-light program (src/GUI1.py), and verification of the frozen claims
about it.

Modelling conventions:
* Python floats are modelled as rationals (ℚ); every arithmetic operation
  used by the program (+, -, *, /, floor, comparisons) is exact on ℚ.
* Python `int(x)` truncates toward zero; every position it is applied to in
  this program is non-negative, so it is modelled as `Int.floor`.
* Python `//` (float floor division) and `%` (float modulo with the sign of
  the divisor) are modelled with `Int.floor` and `qmod` below.
* Python division by zero raises `ZeroDivisionError`.  Where a claim is about
  that behaviour the fallible division is modelled with `Option`
  (`PaceEvent.leds_per_meterE`); elsewhere the total field division of ℚ is
  used and theorems carry `laps_m ≠ 0` style hypotheses that make the total
  model agree with the source.
* The mutable per-tick loop bodies of `Runner.run_event`,
  `Runner.run_event_with_splits` and `Runner.run_events_parallel` are
  modelled as pure tick functions from state to state; pushing a frame to
  the strip is modelled by returning the framebuffer.
-/

/-- An RGB colour triple.  Channels in the source are Python ints that are
non-negative on every reachable path (the GUI clamps them to 0..255), so
they are modelled as naturals. -/
abbrev RGB : Type := ℕ × ℕ × ℕ

/-- A framebuffer: one RGB triple per LED of the rail. -/
abbrev Frame : Type := List RGB

/-- The all-off colour (0,0,0). -/
def blackRGB : RGB := (0, 0, 0)

/-- clamp_byte from GUI1.py: clamp an int to 0..255.  On naturals only the
upper clamp can fire. -/
def clamp_byte (x : ℕ) : ℕ := if 255 < x then 255 else x

/-- blend_additive from GUI1.py: per-channel clamped additive blending. -/
def blend_additive (c1 c2 : RGB) : RGB :=
  (clamp_byte (c1.1 + c2.1), clamp_byte (c1.2.1 + c2.2.1), clamp_byte (c1.2.2 + c2.2.2))

/-- The PaceEvent dataclass of GUI1.py (the `name` label is omitted: it has
no semantic effect).  Field defaults mirror the dataclass defaults. -/
structure PaceEvent where
  distance_m : ℤ
  rail_leds : ℕ
  target_time_s : ℚ
  laps_m : ℤ := 400
  color : RGB := (0, 255, 0)
  trail_len : ℕ := 5
  splits_100 : Option (List ℚ) := none
  start_led : Option ℤ := none

/-- PaceEvent.pace_mps: `distance_m / target_time_s if target_time_s > 0
else 0.0`. -/
def PaceEvent.pace_mps (ev : PaceEvent) : ℚ :=
  if 0 < ev.target_time_s then (ev.distance_m : ℚ) / ev.target_time_s else 0

/-- PaceEvent.leds_per_meter: `rail_leds / float(laps_m)` — with NO guard in
the source.  This is the total ℚ model (division by zero yields 0 in ℚ);
the fallible Python behaviour is `leds_per_meterE` below, and theorems that
use this total model carry `laps_m ≠ 0` hypotheses. -/
def PaceEvent.leds_per_meter (ev : PaceEvent) : ℚ :=
  (ev.rail_leds : ℚ) / (ev.laps_m : ℚ)

/-- Python semantics of PaceEvent.leds_per_meter: `rail_leds /
float(laps_m)` raises ZeroDivisionError when `laps_m = 0` (modelled as
`none`) and otherwise returns the quotient. -/
def PaceEvent.leds_per_meterE (ev : PaceEvent) : Option ℚ :=
  if ev.laps_m = 0 then none else some ((ev.rail_leds : ℚ) / (ev.laps_m : ℚ))

/-- PaceEvent.total_led_traversals: `max(1, math.ceil(distance_m / laps_m))`. -/
def PaceEvent.total_led_traversals (ev : PaceEvent) : ℤ :=
  max 1 ⌈(ev.distance_m : ℚ) / (ev.laps_m : ℚ)⌉

/-- The brightness factor computed inside PaceEvent.precompute_trail for
loop variable t: `max(0.1, 1.0 - (t / max(1, trail_len)))`. -/
def trailFactor (trail_len t : ℕ) : ℚ :=
  max (1 / 10) (1 - (t : ℚ) / ((max 1 trail_len : ℕ) : ℚ))

/-- Scale a colour by a factor, flooring each channel — Python
`(int(r * factor), int(g * factor), int(b * factor))`; channels and factors
are non-negative here, so `int` is floor. -/
def scaleColor (c : RGB) (f : ℚ) : RGB :=
  ((⌊(c.1 : ℚ) * f⌋).toNat, (⌊(c.2.1 : ℚ) * f⌋).toNat, (⌊(c.2.2 : ℚ) * f⌋).toNat)

/-- PaceEvent.precompute_trail: the Python loop runs t = trail_len,
trail_len-1, ..., 0 and appends one level per t, so element i of the result
corresponds to t = trail_len - i. -/
def PaceEvent.precompute_trail (ev : PaceEvent) : List RGB :=
  (List.range (ev.trail_len + 1)).map
    (fun i => scaleColor ev.color (trailFactor ev.trail_len (ev.trail_len - i)))

/-- The sequence of brightness factors underlying precompute_trail, in list
order (element i corresponds to loop variable t = trail_len - i). -/
def trailFactors (trail_len : ℕ) : List ℚ :=
  (List.range (trail_len + 1)).map (fun i => trailFactor trail_len (trail_len - i))

/-- Number of iterations of the wrap loop `while pos >= rail: pos -= rail`
(closed form; see wrapSteps_of_lt / wrapSteps_step for the loop equations). -/
def wrapSteps (rail : ℕ) (pos : ℚ) : ℕ :=
  if (rail : ℚ) ≤ pos ∧ 0 < rail then (⌊pos / (rail : ℚ)⌋).toNat else 0

/-- Result of the wrap loop `while pos >= rail: pos -= rail`. -/
def wrapPos (rail : ℕ) (pos : ℚ) : ℚ :=
  pos - (rail : ℚ) * (wrapSteps rail pos : ℕ)

/-- Python float `pos % rail` for a positive modulus (used by
run_event_with_splits, which never normalizes `pos_f` itself). -/
def qmod (pos : ℚ) (rail : ℕ) : ℚ :=
  pos - (rail : ℚ) * ⌊pos / (rail : ℚ)⌋

/-- The trail-drawing loop shared by all three run modes:
`for t, col in enumerate(trail_levels): idx = head_idx - (trail_len - t);
if idx < 0: continue; fb[idx] = combine(fb[idx], col)`.
`combine` is plain assignment in the single-event runners and additive
blending in the parallel compositor. -/
def drawTrailAux (combine : RGB → RGB → RGB) (head : ℤ) (trail_len : ℕ) :
    List RGB → ℕ → List RGB → List RGB
  | [], _, fb => fb
  | col :: rest, t, fb =>
    drawTrailAux combine head trail_len rest (t + 1)
      (if head - ((trail_len : ℤ) - (t : ℤ)) < 0 then fb
       else fb.set (head - ((trail_len : ℤ) - (t : ℤ))).toNat
         (combine (fb.getD (head - ((trail_len : ℤ) - (t : ℤ))).toNat blackRGB) col))

/-- Trail drawing with plain assignment `fb[idx] = col`
(run_event and run_event_with_splits). -/
def drawTrail (fb : Frame) (head : ℤ) (trail_len : ℕ) (levels : List RGB) : Frame :=
  drawTrailAux (fun _ c => c) head trail_len levels 0 fb

/-- Trail drawing with additive blending `fb[idx] = blend_additive(fb[idx], col)`
(run_events_parallel). -/
def drawTrailBlend (fb : Frame) (head : ℤ) (trail_len : ℕ) (levels : List RGB) : Frame :=
  drawTrailAux blend_additive head trail_len levels 0 fb

/-- Mutable per-run state of the single-event runners: `pos_f` and
`meters_done`. -/
structure SState where
  pos : ℚ
  meters : ℚ

/-- `start_led = (ev.start_led % rail_leds) if (ev.start_led is not None and
rail_leds > 0) else 0` — Python int % has the sign of the (positive)
divisor, exactly like Int.emod. -/
def startPos (rail : ℕ) : Option ℤ → ℚ
  | some s => if 0 < rail then ((s % (rail : ℤ) : ℤ) : ℚ) else 0
  | none => 0

/-- `seg_idx = int(min(len(splits) - 1, meters_done // 100))`. -/
def segIdx (splits : List ℚ) (meters : ℚ) : ℕ :=
  min (splits.length - 1) (⌊meters / 100⌋).toNat

/-- `splits[0] if splits and splits[0] > 0 else 1e-9` (the denominator guard
used for the startup compensation in split mode). -/
def firstSplitGuard : List ℚ → ℚ
  | s0 :: _ => if 0 < s0 then s0 else 1 / 1000000000
  | [] => 1 / 1000000000

/-- Per-tick split-pace velocity in LEDs/second:
`mps = 100.0 / splits[seg_idx]; v = mps * lpm`. -/
def splitVel (ev : PaceEvent) (meters : ℚ) : ℚ :=
  (100 / (ev.splits_100.getD []).getD (segIdx (ev.splits_100.getD []) meters) 0) *
    ev.leds_per_meter

/-- Initialization of run_event before its loop: start position, blank
frame pushed to measure the startup delay, then position/meters pre-advanced
by the measured delay at the constant velocity (GUI1.py lines 278-294).
`delay` is the measured startup delay. -/
def constInit (rail : ℕ) (delay : ℚ) (ev : PaceEvent) : SState × Frame :=
  let lps := ev.pace_mps * ev.leds_per_meter
  (⟨startPos rail ev.start_led + lps * delay,
    0 + (lps / ev.leds_per_meter) * delay⟩,
   List.replicate rail blackRGB)

/-- Initialization of run_event_with_splits before its loop (GUI1.py lines
207-225): like constInit but pre-advancing at the first segment velocity. -/
def splitsInit (rail : ℕ) (delay : ℚ) (ev : PaceEvent) : SState × Frame :=
  let firstV := (100 / firstSplitGuard (ev.splits_100.getD [])) * ev.leds_per_meter
  (⟨startPos rail ev.start_led + firstV * delay,
    0 + (firstV / ev.leds_per_meter) * delay⟩,
   List.replicate rail blackRGB)

/-- One iteration of the run_event loop body (GUI1.py lines 301-323):
advance, wrap, THEN check `meters_done >= distance_m` and break before
drawing; otherwise draw the trail into a zeroed framebuffer and push it.
Returns (new state, pushed frame if any, terminated?). -/
def constTick (rail : ℕ) (ev : PaceEvent) (dt : ℚ) (s : SState) :
    SState × Option Frame × Bool :=
  let lps := ev.pace_mps * ev.leds_per_meter
  let pos1 := s.pos + lps * dt
  let m1 := s.meters + (lps / ev.leds_per_meter) * dt
  let pos2 := wrapPos rail pos1
  if (ev.distance_m : ℚ) ≤ m1 then (⟨pos2, m1⟩, none, true)
  else
    (⟨pos2, m1⟩,
     some (drawTrail (List.replicate rail blackRGB) ⌊pos2⌋ ev.trail_len ev.precompute_trail),
     false)

/-- One iteration of the run_event_with_splits loop body (GUI1.py lines
233-259): advance (no normalization of `pos_f`; only the drawn head index is
`int(pos_f % rail_leds)`), draw, push, and only THEN check
`meters_done >= distance_m`.  The frame is therefore pushed even on the
terminating tick. -/
def splitsTick (rail : ℕ) (ev : PaceEvent) (dt : ℚ) (s : SState) :
    SState × Option Frame × Bool :=
  let v := splitVel ev s.meters
  let pos1 := s.pos + v * dt
  let m1 := s.meters + (v / ev.leds_per_meter) * dt
  (⟨pos1, m1⟩,
   some (drawTrail (List.replicate rail blackRGB) ⌊qmod pos1 rail⌋ ev.trail_len
     ev.precompute_trail),
   decide ((ev.distance_m : ℚ) ≤ m1))

/-- Fault injection for the Pixel Sink during the per-tick push:
does some `setPixelColor` call raise?  does `show()` raise? -/
structure SinkFaults where
  setPixelFails : Bool
  showFails : Bool

/-- The run_event loop body with Pixel Sink faults (GUI1.py lines 318-323):
the per-pixel `setPixelColor` loop is NOT inside a try block, so a failure
there propagates and aborts the run (modelled as `Except.error ()`); only
`show()` is wrapped in try/except, whose failure is logged (last component)
and the loop proceeds.  The terminating branch pushes nothing, so faults are
irrelevant there. -/
def constTickF (rail : ℕ) (ev : PaceEvent) (dt : ℚ) (s : SState) (f : SinkFaults) :
    Except Unit (SState × Option Frame × Bool × Bool) :=
  let lps := ev.pace_mps * ev.leds_per_meter
  let pos1 := s.pos + lps * dt
  let m1 := s.meters + (lps / ev.leds_per_meter) * dt
  let pos2 := wrapPos rail pos1
  if (ev.distance_m : ℚ) ≤ m1 then Except.ok (⟨pos2, m1⟩, none, true, false)
  else if f.setPixelFails then Except.error ()
  else
    Except.ok (⟨pos2, m1⟩,
      some (drawTrail (List.replicate rail blackRGB) ⌊pos2⌋ ev.trail_len ev.precompute_trail),
      false, f.showFails)

/-- The run_event_with_splits loop body with Pixel Sink faults (GUI1.py
lines 251-258): the push happens on every tick, before the termination
check; the per-pixel `setPixelColor` loop is NOT inside a try block, so a
failure there aborts the run (`Except.error ()`); only `show()` is wrapped
in try/except, whose failure is logged (last component) and the loop
proceeds to the termination check. -/
def splitsTickF (rail : ℕ) (ev : PaceEvent) (dt : ℚ) (s : SState) (f : SinkFaults) :
    Except Unit (SState × Option Frame × Bool × Bool) :=
  let v := splitVel ev s.meters
  let pos1 := s.pos + v * dt
  let m1 := s.meters + (v / ev.leds_per_meter) * dt
  if f.setPixelFails then Except.error ()
  else
    Except.ok (⟨pos1, m1⟩,
      some (drawTrail (List.replicate rail blackRGB) ⌊qmod pos1 rail⌋ ev.trail_len
        ev.precompute_trail),
      decide ((ev.distance_m : ℚ) ≤ m1), f.showFails)

/-- The per-event state dict built by run_events_parallel (GUI1.py lines
348-369), field for field. -/
structure SubState where
  ev : PaceEvent
  ledsPerSec : ℚ
  pos : ℚ
  traversalsNeeded : ℤ
  traversalsDone : ℤ
  metersDone : ℚ
  useSplits : Bool
  done : Bool
  trailLevels : List RGB

/-- Python `bool(ev.splits_100)`: None and the empty list are falsy. -/
def truthySplits : Option (List ℚ) → Bool
  | some (_ :: _) => true
  | _ => false

/-- State construction for one event in run_events_parallel: events whose
derived constant-pace velocity is not strictly positive are skipped
(`if leds_per_sec <= 0: continue`), BEFORE `use_splits` is even consulted. -/
def mkSubState (rail : ℕ) (ev : PaceEvent) : Option SubState :=
  let lps := ev.pace_mps * ev.leds_per_meter
  if lps ≤ 0 then none
  else some {
    ev := ev
    ledsPerSec := lps
    pos := startPos rail ev.start_led
    traversalsNeeded := ev.total_led_traversals
    traversalsDone := 0
    metersDone := 0
    useSplits := truthySplits ev.splits_100
    done := false
    trailLevels := ev.precompute_trail }

/-- The `state` list of run_events_parallel. -/
def buildStates (rail : ℕ) (events : List PaceEvent) : List SubState :=
  events.filterMap (mkSubState rail)

/-- Closed form of the wrap loop of the compositor for a constant-pace sub-event
(GUI1.py lines 424-430): subtract `rail` while `pos >= rail`, incrementing
the traversal counter each time, and break out (setting done) as soon as the
counter reaches `needed` — possibly leaving `pos >= rail`.
Returns (new pos, new counter, done?).  See compWrap_of_lt / compWrap_step
for the loop equations this closed form satisfies. -/
def compWrap (rail : ℕ) (needed trav : ℤ) (pos : ℚ) : ℚ × ℤ × Bool :=
  let steps : ℕ := min (wrapSteps rail pos) (max 1 (needed - trav)).toNat
  (pos - (rail : ℚ) * (steps : ℕ), trav + (steps : ℕ),
   decide (1 ≤ steps ∧ needed ≤ trav + (steps : ℕ)))

/-- Advancing one sub-event inside a compositor tick (GUI1.py lines
405-438): done states are untouched; split states advance, fully wrap
without counting, and set done from `meters_done >= distance_m`; constant
states advance and run the counting wrap loop, whose break sets done. -/
def advanceSub (rail : ℕ) (dt : ℚ) (st : SubState) : SubState :=
  if st.done then st
  else
    let v := if st.useSplits then splitVel st.ev st.metersDone else st.ledsPerSec
    let pos1 := st.pos + v * dt
    let m1 := st.metersDone + (v / st.ev.leds_per_meter) * dt
    if st.useSplits then
      { st with pos := wrapPos rail pos1, metersDone := m1,
                done := decide ((st.ev.distance_m : ℚ) ≤ m1) }
    else
      let w := compWrap rail st.traversalsNeeded st.traversalsDone pos1
      { st with pos := w.1, metersDone := m1, traversalsDone := w.2.1, done := w.2.2 }

/-- Startup-delay compensation applied to one sub-event in
run_events_parallel (GUI1.py lines 382-386). -/
def preAdvance (delay : ℚ) (st : SubState) : SubState :=
  let v0 := if st.useSplits
    then (100 / firstSplitGuard (st.ev.splits_100.getD [])) * st.ev.leds_per_meter
    else st.ledsPerSec
  { st with pos := st.pos + v0 * delay,
            metersDone := st.metersDone + (v0 / st.ev.leds_per_meter) * delay }

/-- One iteration of the run_events_parallel loop body (GUI1.py lines
393-458): `all_done` is computed from the done flags at the START of the
tick (a sub-event finishing during this tick does not count until the next
one); every non-done sub-event advances and, if still not done, blends its
trail additively into the zeroed framebuffer; the frame is pushed
unconditionally.  Returns (new states, pushed frame, all_done). -/
def parTick (rail : ℕ) (dt : ℚ) (states : List SubState) :
    List SubState × Frame × Bool :=
  let states2 := states.map (advanceSub rail dt)
  (states2,
   states2.foldl
     (fun fb st => if st.done then fb
                   else drawTrailBlend fb ⌊st.pos⌋ st.ev.trail_len st.trailLevels)
     (List.replicate rail blackRGB),
   states.all (fun st => st.done))

/-- The run_events_parallel loop body with Pixel Sink faults (GUI1.py lines
393-458): the framebuffer push (lines 449-455) happens on every tick,
before the all_done break check; the per-pixel `setPixelColor` loop is NOT
inside a try block, so a failure there aborts the run (`Except.error ()`);
only `show()` is wrapped in try/except, whose failure is logged (last
component) and the loop proceeds to the break check. -/
def parTickF (rail : ℕ) (dt : ℚ) (states : List SubState) (f : SinkFaults) :
    Except Unit (List SubState × Frame × Bool × Bool) :=
  let states2 := states.map (advanceSub rail dt)
  let fb := states2.foldl
    (fun fb st => if st.done then fb
                  else drawTrailBlend fb ⌊st.pos⌋ st.ev.trail_len st.trailLevels)
    (List.replicate rail blackRGB)
  if f.setPixelFails then Except.error ()
  else Except.ok (states2, fb, states.all (fun st => st.done), f.showFails)

/-- The run_events_parallel render loop, fuelled: each iteration runs
parTick, pushes the frame, and breaks when all_done was true at the start of
the tick.  Returns (pushed frames, final states, completed normally?). -/
def parLoop (rail : ℕ) (dt : ℚ) : ℕ → List SubState → List Frame × List SubState × Bool
  | 0, states => ([], states, false)
  | fuel + 1, states =>
    let r := parTick rail dt states
    if r.2.2 then ([r.2.1], r.1, true)
    else
      let rest := parLoop rail dt fuel r.1
      (r.2.1 :: rest.1, rest.2.1, rest.2.2)

/-- The validation loop of run_events_parallel (GUI1.py lines 341-346):
the rail_leds of each event must equal the pixel count of the strip, and the
laps_m of each event must equal that of the first event, otherwise a ValueError is raised. -/
def validateEvents (rail : ℕ) (laps0 : ℤ) : List PaceEvent → Except String Unit
  | [] => Except.ok ()
  | ev :: rest =>
    if ev.rail_leds ≠ rail then
      Except.error "All events must use the same Rail LEDs to run in parallel."
    else if ev.laps_m ≠ laps0 then
      Except.error "All events must use the same lap length to run in parallel."
    else validateEvents rail laps0 rest

/-- Observable outcome of run_events_parallel: the frames pushed to the
strip in order, whether the running flag was ever set, and either the
ValueError message or whether the loop completed within the fuel. -/
structure ParResult where
  frames : List Frame
  runningSet : Bool
  result : Except String Bool

/-- MAX_FPS configuration constant of GUI1.py. -/
def MAX_FPS : ℕ := 120

/-- frame_dt_target = 1.0 / MAX_FPS. -/
def frameDt : ℚ := 1 / (MAX_FPS : ℚ)

/-- Runner.run_events_parallel (GUI1.py lines 329-465): empty submission
returns at once; more than two events are truncated to the first two;
validation runs before anything is rendered; events with non-positive
constant velocity are dropped while building states; if no state remains the
function returns before pushing anything and before setting the running
flag; otherwise one blank frame is pushed (startup-delay measurement), the
pre-advance compensation is applied when the measured delay is positive, the
running flag is set and the fuelled loop runs. -/
def run_events_parallel (fuel rail : ℕ) (delay : ℚ) (events : List PaceEvent) :
    ParResult :=
  match events with
  | [] => ⟨[], false, Except.ok false⟩
  | e0 :: _ =>
    let evs := events.take 2
    match validateEvents rail e0.laps_m evs with
    | Except.error msg => ⟨[], false, Except.error msg⟩
    | Except.ok _ =>
      match buildStates rail evs with
      | [] => ⟨[], false, Except.ok false⟩
      | s0 :: srest =>
        let states1 := if 0 < delay
          then (s0 :: srest).map (preAdvance delay) else s0 :: srest
        let r := parLoop rail frameDt fuel states1
        ⟨List.replicate rail blackRGB :: r.1, true, Except.ok r.2.2⟩

/-! ### Fidelity lemmas for the closed-form wrap loops

The wrap loop `while pos >= rail: pos -= rail` and its counting variant in
the compositor are modelled by the closed forms `wrapSteps`/`wrapPos` and
`compWrap`.  The following lemmas show those closed forms satisfy exactly
the defining equations of the Python loops: the guard-false case leaves the
state unchanged, and the guard-true case equals one subtraction followed by
the remaining loop. -/

lemma wrapSteps_of_lt (rail : ℕ) (pos : ℚ) (h : pos < rail) : wrapSteps rail pos = 0 := by
  unfold wrapSteps
  rw [if_neg]
  rintro ⟨h1, _⟩
  exact absurd h (not_lt.mpr h1)

lemma wrapPos_of_lt (rail : ℕ) (pos : ℚ) (h : pos < rail) : wrapPos rail pos = pos := by
  unfold wrapPos
  rw [wrapSteps_of_lt rail pos h]
  simp

lemma wrapSteps_step (rail : ℕ) (pos : ℚ) (hr : 0 < rail) (hp : (rail : ℚ) ≤ pos) :
    wrapSteps rail pos = wrapSteps rail (pos - rail) + 1 := by
  have hq : (0 : ℚ) < (rail : ℚ) := by exact_mod_cast hr
  have hdiv : (1 : ℚ) ≤ pos / rail := (one_le_div hq).mpr hp
  have hfloor1 : (1 : ℤ) ≤ ⌊pos / (rail : ℚ)⌋ := by
    exact_mod_cast Int.le_floor.mpr (by exact_mod_cast hdiv)
  have hsub : (pos - rail) / (rail : ℚ) = pos / rail - 1 := by
    field_simp
  have hfs : ⌊(pos - rail) / (rail : ℚ)⌋ = ⌊pos / (rail : ℚ)⌋ - 1 := by
    rw [hsub]
    exact_mod_cast Int.floor_sub_int (pos / (rail : ℚ)) 1
  unfold wrapSteps
  by_cases h2 : (rail : ℚ) ≤ pos - rail
  · rw [if_pos ⟨hp, hr⟩, if_pos ⟨h2, hr⟩, hfs]
    omega
  · rw [if_pos ⟨hp, hr⟩, if_neg (by rintro ⟨h3, _⟩; exact h2 h3)]
    have hlt : pos / (rail : ℚ) < 2 := by
      rw [div_lt_iff₀ hq]
      have := not_le.mp h2
      linarith
    have : ⌊pos / (rail : ℚ)⌋ < 2 := by
      exact_mod_cast Int.floor_lt.mpr (by exact_mod_cast hlt)
    omega

lemma wrapPos_step (rail : ℕ) (pos : ℚ) (hr : 0 < rail) (hp : (rail : ℚ) ≤ pos) :
    wrapPos rail pos = wrapPos rail (pos - rail) := by
  unfold wrapPos
  rw [wrapSteps_step rail pos hr hp]
  push_cast
  ring

lemma wrapPos_mem (rail : ℕ) (pos : ℚ) (hr : 0 < rail) (hp : 0 ≤ pos) :
    0 ≤ wrapPos rail pos ∧ wrapPos rail pos < rail := by
  have hq : (0 : ℚ) < (rail : ℚ) := by exact_mod_cast hr
  by_cases h : (rail : ℚ) ≤ pos
  · have hfl0 : (0 : ℤ) ≤ ⌊pos / (rail : ℚ)⌋ := Int.floor_nonneg.mpr (by positivity)
    have hcast : ((((⌊pos / (rail : ℚ)⌋).toNat : ℕ)) : ℚ) = (⌊pos / (rail : ℚ)⌋ : ℚ) := by
      exact_mod_cast Int.toNat_of_nonneg hfl0
    unfold wrapPos wrapSteps
    rw [if_pos ⟨h, hr⟩, hcast]
    have key : pos - (rail : ℚ) * ⌊pos / (rail : ℚ)⌋ = (rail : ℚ) * Int.fract (pos / rail) := by
      rw [Int.fract]
      field_simp
    rw [key]
    constructor
    · exact mul_nonneg hq.le (Int.fract_nonneg _)
    · calc (rail : ℚ) * Int.fract (pos / rail) < (rail : ℚ) * 1 :=
            (mul_lt_mul_left hq).mpr (Int.fract_lt_one _)
      _ = rail := mul_one _
  · rw [wrapPos_of_lt rail pos (not_le.mp h)]
    exact ⟨hp, not_le.mp h⟩

lemma compWrap_of_lt (rail : ℕ) (needed trav : ℤ) (pos : ℚ) (h : pos < rail) :
    compWrap rail needed trav pos = (pos, trav, false) := by
  unfold compWrap
  rw [wrapSteps_of_lt rail pos h]
  simp

lemma compWrap_step (rail : ℕ) (needed trav : ℤ) (pos : ℚ)
    (hr : 0 < rail) (hp : (rail : ℚ) ≤ pos) :
    compWrap rail needed trav pos =
      if needed ≤ trav + 1 then (pos - rail, trav + 1, true)
      else compWrap rail needed (trav + 1) (pos - rail) := by
  have hstep := wrapSteps_step rail pos hr hp
  by_cases hn : needed ≤ trav + 1
  · have hcap : (max 1 (needed - trav)).toNat = 1 := by omega
    unfold compWrap
    rw [if_pos hn, hstep, hcap]
    have hmin : min (wrapSteps rail (pos - ↑rail) + 1) 1 = 1 := by omega
    rw [hmin]
    simp only [Nat.cast_one, mul_one, Prod.mk.injEq, decide_eq_true_eq]
    exact ⟨trivial, trivial, le_refl 1, hn⟩
  · have hge2 : 2 ≤ needed - trav := by omega
    have hcap : (max 1 (needed - trav)).toNat = (needed - trav).toNat := by omega
    have hcap2 : (max 1 (needed - (trav + 1))).toNat = (needed - trav).toNat - 1 := by omega
    unfold compWrap
    rw [if_neg hn, hstep, hcap, hcap2]
    have hmin : min (wrapSteps rail (pos - ↑rail) + 1) (needed - trav).toNat =
        min (wrapSteps rail (pos - ↑rail)) ((needed - trav).toNat - 1) + 1 := by omega
    rw [hmin]
    simp only [Prod.mk.injEq]
    refine ⟨by push_cast; ring, by push_cast; ring, ?_⟩
    have hiff : (1 ≤ min (wrapSteps rail (pos - ↑rail)) ((needed - trav).toNat - 1) + 1 ∧
          needed ≤ trav + ↑(min (wrapSteps rail (pos - ↑rail)) ((needed - trav).toNat - 1) + 1))
        ↔ (1 ≤ min (wrapSteps rail (pos - ↑rail)) ((needed - trav).toNat - 1) ∧
          needed ≤ trav + 1 + ↑(min (wrapSteps rail (pos - ↑rail)) ((needed - trav).toNat - 1))) := by
      constructor
      · rintro ⟨-, h2⟩
        refine ⟨?_, by push_cast at h2 ⊢; omega⟩
        by_contra hzero
        have : min (wrapSteps rail (pos - ↑rail)) ((needed - trav).toNat - 1) = 0 := by omega
        rw [this] at h2
        push_cast at h2
        omega
      · rintro ⟨h1, h2⟩
        exact ⟨by omega, by push_cast at h2 ⊢; omega⟩
    exact decide_eq_decide.mpr hiff

lemma compWrap_trav (rail : ℕ) (needed trav : ℤ) (pos : ℚ) :
    (compWrap rail needed trav pos).2.1 =
      trav + (min (wrapSteps rail pos) (max 1 (needed - trav)).toNat : ℕ) := rfl

lemma compWrap_pos_eq (rail : ℕ) (needed trav : ℤ) (pos : ℚ) :
    (compWrap rail needed trav pos).1 =
      pos - (rail : ℚ) * (((compWrap rail needed trav pos).2.1 - trav : ℤ) : ℚ) := by
  unfold compWrap
  push_cast
  ring

lemma compWrap_not_done (rail : ℕ) (needed trav : ℤ) (pos : ℚ)
    (htrav : trav < needed) (hdone : (compWrap rail needed trav pos).2.2 = false) :
    (compWrap rail needed trav pos).1 = wrapPos rail pos := by
  have hcap : ((max 1 (needed - trav)).toNat : ℤ) = needed - trav := by omega
  by_cases hsteps : (max 1 (needed - trav)).toNat ≤ wrapSteps rail pos
  · exfalso
    unfold compWrap at hdone
    simp only [min_eq_right hsteps, decide_eq_false_iff_not, not_and, not_le] at hdone
    have h1 : 1 ≤ (max 1 (needed - trav)).toNat := by omega
    have := hdone h1
    omega
  · have hmin : min (wrapSteps rail pos) (max 1 (needed - trav)).toNat = wrapSteps rail pos :=
      min_eq_left (le_of_not_le hsteps)
    unfold compWrap wrapPos
    rw [hmin]

lemma compWrap_done_iff (rail : ℕ) (needed trav : ℤ) (pos : ℚ) (htrav : trav < needed) :
    (compWrap rail needed trav pos).2.2 = true ↔
      needed ≤ (compWrap rail needed trav pos).2.1 := by
  unfold compWrap
  simp only [decide_eq_true_eq]
  constructor
  · rintro ⟨-, h2⟩
    exact h2
  · intro h
    refine ⟨?_, h⟩
    by_contra hzero
    have : min (wrapSteps rail pos) (max 1 (needed - trav)).toNat = 0 := by omega
    rw [this] at h
    push_cast at h
    omega

/-! ### Lemmas about the trail-drawing loop -/

lemma drawTrailAux_length (combine : RGB → RGB → RGB) (head : ℤ) (TL : ℕ) :
    ∀ (levels : List RGB) (t : ℕ) (fb : List RGB),
      (drawTrailAux combine head TL levels t fb).length = fb.length := by
  intro levels
  induction levels with
  | nil => intro t fb; rfl
  | cons col rest ih =>
    intro t fb
    rw [drawTrailAux, ih]
    split
    · rfl
    · exact List.length_set ..

lemma drawTrailAux_untouched (combine : RGB → RGB → RGB) (head : ℤ) (TL : ℕ) :
    ∀ (levels : List RGB) (t : ℕ) (fb : List RGB) (j : ℕ),
      t + levels.length ≤ TL + 1 →
      ((j : ℤ) < head - ((TL : ℤ) - (t : ℤ)) ∨ head < (j : ℤ)) →
      (drawTrailAux combine head TL levels t fb)[j]? = fb[j]? := by
  intro levels
  induction levels with
  | nil => intro t fb j _ _; rfl
  | cons col rest ih =>
    intro t fb j hlen hj
    rw [drawTrailAux]
    have hrec : ((j : ℤ) < head - ((TL : ℤ) - ((t + 1 : ℕ) : ℤ)) ∨ head < (j : ℤ)) := by
      rcases hj with hj | hj
      · left; push_cast; omega
      · right; exact hj
    rw [ih (t + 1) _ j (by simp at hlen ⊢; omega) hrec]
    split
    · rfl
    · next hneg =>
      rw [List.getElem?_set_ne]
      have hidx0 : 0 ≤ head - ((TL : ℤ) - (t : ℤ)) := by omega
      have htle : (t : ℤ) ≤ (TL : ℤ) := by
        simp at hlen; omega
      rcases hj with hj | hj
      · omega
      · omega

lemma drawTrailAux_written (head : ℤ) (TL : ℕ) :
    ∀ (levels : List RGB) (t : ℕ) (fb : List RGB) (k : ℕ),
      k < levels.length →
      t + levels.length ≤ TL + 1 →
      0 ≤ head - ((TL : ℤ) - ((t + k : ℕ) : ℤ)) →
      head < (fb.length : ℤ) →
      (drawTrailAux (fun _ c => c) head TL levels t
          fb)[(head - ((TL : ℤ) - ((t + k : ℕ) : ℤ))).toNat]? =
        levels[k]? := by
  intro levels
  induction levels with
  | nil => intro t fb k hk; exact absurd hk (by simp)
  | cons col rest ih =>
    intro t fb k hk hlen hidx hfb
    have htle : (t : ℤ) + (rest.length : ℤ) ≤ (TL : ℤ) := by
      simp at hlen; omega
    match k with
    | 0 =>
      rw [drawTrailAux]
      have hid : ¬ (head - ((TL : ℤ) - (t : ℤ)) < 0) := by
        push_cast at hidx; omega
      rw [if_neg hid]
      have huntouched := drawTrailAux_untouched (fun _ c => c) head TL rest (t + 1)
        (fb.set (head - ((TL : ℤ) - (t : ℤ))).toNat
          ((fun _ c => c) (fb.getD (head - ((TL : ℤ) - (t : ℤ))).toNat blackRGB) col))
        (head - ((TL : ℤ) - ((t + 0 : ℕ) : ℤ))).toNat
        (by simp at hlen ⊢; omega)
        (by left; push_cast at hidx ⊢; omega)
      rw [huntouched]
      have hlt : (head - ((TL : ℤ) - (t : ℤ))).toNat < fb.length := by
        push_cast at hidx; omega
      simp only [Nat.add_zero]
      rw [List.getElem?_set_self']
      simp [List.getElem?_eq_getElem, hlt]
    | k + 1 =>
      rw [drawTrailAux]
      have heq : (t + 1) + k = t + (k + 1) := by omega
      have hres := ih (t + 1)
        (if head - ((TL : ℤ) - (t : ℤ)) < 0 then fb
         else fb.set (head - ((TL : ℤ) - (t : ℤ))).toNat
           ((fun _ c => c) (fb.getD (head - ((TL : ℤ) - (t : ℤ))).toNat blackRGB) col))
        k
        (by simpa using Nat.lt_of_succ_lt_succ (by simpa using hk))
        (by simp at hlen ⊢; omega)
        (by rw [heq]; exact hidx)
        (by split
            · exact hfb
            · rw [List.length_set]; exact hfb)
      rw [heq] at hres
      rw [hres]
      simp

/-! ### Lemmas about the trail brightness factors -/

lemma trailFactor_le (TL t1 t2 : ℕ) (h : t2 ≤ t1) :
    trailFactor TL t1 ≤ trailFactor TL t2 := by
  unfold trailFactor
  apply max_le_max (le_refl _)
  apply sub_le_sub_left
  gcongr

lemma trailFactors_getElem (TL i : ℕ) (h : i < TL + 1) :
    (trailFactors TL)[i]? = some (trailFactor TL (TL - i)) := by
  unfold trailFactors
  rw [List.getElem?_map, List.getElem?_range h]
  rfl

/-! ### Claim theorems -/

/-- Claim C5 (amended): pace_mps returns distance_m/target_time_s guarded to
0.0 when target_time_s is zero or negative, but leds_per_meter performs the
division rail_leds/laps_m with no guard at all: laps_m = 0 raises a
ZeroDivisionError (modelled as none) and a negative laps_m yields the
(possibly negative) quotient. -/
theorem c5_derived_quantities :
    (∀ ev : PaceEvent, 0 < ev.target_time_s →
      ev.pace_mps = (ev.distance_m : ℚ) / ev.target_time_s)
    ∧ (∀ ev : PaceEvent, ev.target_time_s ≤ 0 → ev.pace_mps = 0)
    ∧ (∀ ev : PaceEvent, ev.laps_m ≠ 0 →
        ev.leds_per_meterE = some ((ev.rail_leds : ℚ) / (ev.laps_m : ℚ)))
    ∧ (∀ ev : PaceEvent, ev.laps_m = 0 → ev.leds_per_meterE = none)
    ∧ (∀ ev : PaceEvent, ev.laps_m ≠ 0 → ev.leds_per_meterE = some ev.leds_per_meter) := by
  refine ⟨?_, ?_, ?_, ?_, ?_⟩
  · intro ev h
    unfold PaceEvent.pace_mps
    rw [if_pos h]
  · intro ev h
    unfold PaceEvent.pace_mps
    rw [if_neg (not_lt.mpr h)]
  · intro ev h
    unfold PaceEvent.leds_per_meterE
    rw [if_neg h]
  · intro ev h
    unfold PaceEvent.leds_per_meterE
    rw [if_pos h]
  · intro ev h
    unfold PaceEvent.leds_per_meterE PaceEvent.leds_per_meter
    rw [if_neg h]

/-- Claim C5, witness for the amended theorem at a concrete event. -/
theorem c5_derived_quantities_witness :
    ({ distance_m := 400, rail_leds := 200, target_time_s := 60 } : PaceEvent).pace_mps =
      ((400 : ℤ) : ℚ) / (60 : ℚ) := by
  have h := c5_derived_quantities.1 { distance_m := 400, rail_leds := 200, target_time_s := 60 }
    (by norm_num)
  exact h

/-- Claim C5, counterexample: the claim says leds_per_meter guards a zero or
negative denominator by returning 0.0.  In the source there is no guard: an
event with laps_m = -400 gets leds_per_meter = -1/2 (not 0.0), and an event
with laps_m = 0 raises ZeroDivisionError instead of returning 0.0. -/
theorem c5_counterexample :
    ({ distance_m := 400, rail_leds := 200, target_time_s := 60,
       laps_m := -400 } : PaceEvent).leds_per_meterE = some (-(1 / 2) : ℚ)
    ∧ (-(1 / 2) : ℚ) ≠ 0
    ∧ ({ distance_m := 400, rail_leds := 200, target_time_s := 60,
         laps_m := 0 } : PaceEvent).leds_per_meterE = none := by
  refine ⟨?_, by norm_num, ?_⟩
  · unfold PaceEvent.leds_per_meterE
    norm_num
  · unfold PaceEvent.leds_per_meterE
    norm_num

/-- Claim C7 (amended): trail_levels has length trail_len + 1; its
brightness factors (in list order, dimmest first) are non-decreasing, start
at 0.1 when trail_len is at least 1, end at 1.0, and each level is the
colour scaled by the factor with each channel floored (scaleColor).  The
factors are max(0.1, i/max(1,trail_len)), which is NOT the linear
interpolation from 0.1 to 1.0 the claim states (see c7_counterexample). -/
theorem c7_trail_levels (ev : PaceEvent) :
    ev.precompute_trail.length = ev.trail_len + 1
    ∧ List.Pairwise (· ≤ ·) (trailFactors ev.trail_len)
    ∧ (1 ≤ ev.trail_len → (trailFactors ev.trail_len)[0]? = some (1 / 10))
    ∧ (trailFactors ev.trail_len)[ev.trail_len]? = some 1
    ∧ (∀ i : ℕ, i ≤ ev.trail_len →
        ev.precompute_trail[i]? =
          some (scaleColor ev.color (trailFactor ev.trail_len (ev.trail_len - i)))) := by
  refine ⟨?_, ?_, ?_, ?_, ?_⟩
  · unfold PaceEvent.precompute_trail
    rw [List.length_map, List.length_range]
  · unfold trailFactors
    rw [List.pairwise_map]
    apply List.Pairwise.imp ?_ (List.pairwise_lt_range _)
    intro a b hab
    exact trailFactor_le _ _ _ (Nat.sub_le_sub_left (le_of_lt hab) _)
  · intro h
    rw [trailFactors_getElem _ _ (by omega), Nat.sub_zero]
    unfold trailFactor
    have hmax : max 1 ev.trail_len = ev.trail_len := max_eq_right h
    rw [hmax]
    have hne : ((ev.trail_len : ℕ) : ℚ) ≠ 0 := by
      exact_mod_cast Nat.pos_iff_ne_zero.mp h
    rw [div_self hne]
    norm_num
  · rw [trailFactors_getElem _ _ (by omega), Nat.sub_self]
    unfold trailFactor
    norm_num
  · intro i h
    unfold PaceEvent.precompute_trail
    rw [List.getElem?_map, List.getElem?_range (by omega)]
    rfl

/-- Claim C7, witness at a concrete event (trail_len = 5). -/
theorem c7_trail_levels_witness :
    (trailFactors 5)[0]? = some (1 / 10)
    ∧ ({ distance_m := 400, rail_leds := 200, target_time_s := 60 } :
        PaceEvent).precompute_trail.length = 6 := by
  have h := c7_trail_levels { distance_m := 400, rail_leds := 200, target_time_s := 60 }
  exact ⟨h.2.2.1 (by norm_num), h.1⟩

/-- Claim C7, counterexample to the linearity part: for trail_len = 2 the
factor sequence computed by precompute_trail is 1/10, 1/2, 1 — consecutive
increments 2/5 and 1/2 differ, so the factors do not rise linearly from 0.1
to 1.0 (linear interpolation would give the middle factor 11/20, not 1/2). -/
theorem c7_counterexample :
    trailFactors 2 = [1 / 10, 1 / 2, 1]
    ∧ ¬ ((1 : ℚ) / 2 - 1 / 10 = 1 - 1 / 2) := by
  constructor
  · unfold trailFactors trailFactor
    simp [List.range_succ]
    norm_num
  · norm_num

/-- Claim C6 (confirmed): the trail loop writes pixel head - (trail_len - t)
with colour trail_levels[t] for every t with a non-negative index; indices
below 0 are skipped with no wraparound (framebuffer entries outside
[head - trail_len, head] are untouched, in particular everything above the
head); all written indices are at most head, which is below rail_leds
because head = floor(position) with position in [0, rail_leds). -/
theorem c6_trail_indices (fb : Frame) (head : ℤ) (TL : ℕ) (levels : List RGB)
    (hlen : levels.length = TL + 1) (hhead : head < (fb.length : ℤ)) :
    (drawTrail fb head TL levels).length = fb.length
    ∧ (∀ t : ℕ, t ≤ TL → ((TL : ℤ) - (t : ℤ)) ≤ head →
        (drawTrail fb head TL levels)[(head - ((TL : ℤ) - (t : ℤ))).toNat]? = levels[t]?)
    ∧ (∀ j : ℕ, ((j : ℤ) < head - (TL : ℤ) ∨ head < (j : ℤ)) →
        (drawTrail fb head TL levels)[j]? = fb[j]?)
    ∧ (∀ (rail : ℕ) (p : ℚ), 0 ≤ p → p < rail → 0 ≤ ⌊p⌋ ∧ ⌊p⌋ < (rail : ℤ)) := by
  refine ⟨drawTrailAux_length _ _ _ _ _ _, ?_, ?_, ?_⟩
  · intro t ht hge
    have h := drawTrailAux_written head TL levels 0 fb t
      (by omega) (by omega) (by push_cast; omega) hhead
    simpa using h
  · intro j hj
    exact drawTrailAux_untouched (fun _ c => c) head TL levels 0 fb j (by omega)
      (by push_cast; omega)
  · intro rail p hp hlt
    refine ⟨Int.floor_nonneg.mpr hp, ?_⟩
    exact Int.floor_lt.mpr (by exact_mod_cast hlt)

/-- Claim C6, witness at a concrete framebuffer and head. -/
theorem c6_trail_indices_witness :
    (drawTrail (List.replicate 4 blackRGB) 2 1 [(1, 1, 1), (2, 2, 2)]).length = 4
    ∧ (drawTrail (List.replicate 4 blackRGB) 2 1 [(1, 1, 1), (2, 2, 2)])[3]? =
        some blackRGB := by
  have h := c6_trail_indices (List.replicate 4 blackRGB) 2 1 [(1, 1, 1), (2, 2, 2)]
    (by simp) (by simp)
  refine ⟨by simpa using h.1, ?_⟩
  have h3 := h.2.2.1 3 (by norm_num)
  simpa using h3

/-- Claim C2 (amended): both single-event runners terminate exactly when
meters_done reaches distance_m, checked once per tick; the constant-pace
runner checks BEFORE drawing (the terminating tick pushes no frame), while
the split-pace runner draws and pushes first and checks at the end of the
tick (the terminating tick still pushes a frame). -/
theorem c2_single_event_completion :
    (∀ (rail : ℕ) (ev : PaceEvent) (dt : ℚ) (s : SState),
      ((constTick rail ev dt s).2.2 = true ↔
        (ev.distance_m : ℚ) ≤ (constTick rail ev dt s).1.meters)
      ∧ ((constTick rail ev dt s).2.2 = true → (constTick rail ev dt s).2.1 = none)
      ∧ ((constTick rail ev dt s).2.2 = false →
          ((constTick rail ev dt s).2.1).isSome = true))
    ∧ (∀ (rail : ℕ) (ev : PaceEvent) (dt : ℚ) (s : SState),
      ((splitsTick rail ev dt s).2.2 = true ↔
        (ev.distance_m : ℚ) ≤ (splitsTick rail ev dt s).1.meters)
      ∧ ((splitsTick rail ev dt s).2.1).isSome = true) := by
  constructor
  · intro rail ev dt s
    simp only [constTick]
    by_cases h : (ev.distance_m : ℚ) ≤
        s.meters + (ev.pace_mps * ev.leds_per_meter / ev.leds_per_meter) * dt
    · simp [h]
    · simp [h]
  · intro rail ev dt s
    simp only [splitsTick]
    simp

/-- Concrete constant-pace event used by the claim C2 witness. -/
def evC2c : PaceEvent :=
  { distance_m := 1000, rail_leds := 4, target_time_s := 100, laps_m := 4 }

/-- Claim C2, witness at a concrete constant-pace tick. -/
theorem c2_single_event_completion_witness :
    ((constTick 4 evC2c 1 ⟨0, 0⟩).2.2 = true ↔
      ((1000 : ℤ) : ℚ) ≤ (constTick 4 evC2c 1 ⟨0, 0⟩).1.meters)
    ∧ ((splitsTick 4 evC2c 1 ⟨0, 0⟩).2.1).isSome = true := by
  exact ⟨(c2_single_event_completion.1 4 evC2c 1 ⟨0, 0⟩).1,
    (c2_single_event_completion.2 4 evC2c 1 ⟨0, 0⟩).2⟩

/-- Concrete event used by the claim C2 counterexample: a 100 m split-pace
event on a 4-LED rail covering 4 m with a single 1-second 100 m split. -/
def evC2 : PaceEvent :=
  { distance_m := 100, rail_leds := 4, target_time_s := 1, laps_m := 4,
    color := (0, 255, 0), trail_len := 0, splits_100 := some [1] }

/-- Claim C2, counterexample: the claim says the completion condition is
checked before the frame is drawn and pushed in every single-event run.  In
the split-pace runner the check is at the END of the loop body: this tick
both terminates (meters_done = 100 >= distance_m = 100) and pushes a frame
that is not blank — the head pixel is lit — which could not happen if the
check preceded drawing as it does in the constant-pace runner. -/
theorem c2_counterexample :
    (splitsTick 4 evC2 1 ⟨0, 0⟩).2.2 = true
    ∧ (splitsTick 4 evC2 1 ⟨0, 0⟩).2.1 =
        some [(0, 255, 0), blackRGB, blackRGB, blackRGB]
    ∧ some [(0, 255, 0), blackRGB, blackRGB, blackRGB] ≠
        some (List.replicate 4 blackRGB) := by
  have hsplit : evC2.splits_100 = some [1] := rfl
  have hlpm : evC2.leds_per_meter = 1 := by
    unfold PaceEvent.leds_per_meter evC2
    norm_num
  have hvel : splitVel evC2 0 = 100 := by
    unfold splitVel segIdx
    rw [hsplit, hlpm]
    simp
  have htrail : evC2.precompute_trail = [(0, 255, 0)] := by
    unfold PaceEvent.precompute_trail evC2 trailFactor scaleColor
    simp [List.range_succ]
    norm_num
    decide
  have hqmod : qmod (0 + 100 * 1) 4 = 0 := by
    unfold qmod
    push_cast
    norm_num
  have hdraw : drawTrail (List.replicate 4 blackRGB) 0 0 [(0, 255, 0)] =
      [(0, 255, 0), blackRGB, blackRGB, blackRGB] := by
    unfold drawTrail
    rw [drawTrailAux]
    norm_num
    rw [drawTrailAux]
    rfl
  have heval : splitsTick 4 evC2 1 ⟨0, 0⟩ =
      (⟨100, 100⟩, some [(0, 255, 0), blackRGB, blackRGB, blackRGB], true) := by
    simp only [splitsTick]
    rw [hvel]
    rw [hlpm]
    rw [hqmod]
    rw [htrail]
    rw [show evC2.trail_len = 0 from rfl]
    rw [Int.floor_zero]
    rw [hdraw]
    simp only [Prod.mk.injEq, SState.mk.injEq]
    norm_num
    rw [show evC2.distance_m = (100 : ℤ) from rfl]
    norm_num
  rw [heval]
  refine ⟨rfl, rfl, by simp [blackRGB]⟩

/-- Claim C3 (amended): after the wrap loop the position lies in
[0, rail_leds) in the single-event constant-pace runner, and in the
compositor for split sub-events and for constant sub-events that are not
done after the tick (a constant sub-event that just finished breaks out of
the wrap loop early and may keep position >= rail_leds); the
constant-pace traversal counter increments exactly once per subtraction of
rail_leds (the position equation below).  The single-event split-pace runner
never normalizes its position at all — see c3_counterexample. -/
theorem c3_position_invariant :
    (∀ (rail : ℕ) (ev : PaceEvent) (dt : ℚ) (s : SState), 0 < rail →
      0 ≤ s.pos + ev.pace_mps * ev.leds_per_meter * dt →
      0 ≤ (constTick rail ev dt s).1.pos ∧ (constTick rail ev dt s).1.pos < rail)
    ∧ (∀ (rail : ℕ) (dt : ℚ) (st : SubState), 0 < rail →
        st.done = false → st.useSplits = true →
        0 ≤ st.pos + splitVel st.ev st.metersDone * dt →
        0 ≤ (advanceSub rail dt st).pos ∧ (advanceSub rail dt st).pos < rail)
    ∧ (∀ (rail : ℕ) (dt : ℚ) (st : SubState),
        st.done = false → st.useSplits = false →
        ((advanceSub rail dt st).pos = (st.pos + st.ledsPerSec * dt) -
          (rail : ℚ) * (((advanceSub rail dt st).traversalsDone - st.traversalsDone : ℤ) : ℚ))
        ∧ (0 < rail → st.traversalsDone < st.traversalsNeeded →
            (advanceSub rail dt st).done = false →
            0 ≤ st.pos + st.ledsPerSec * dt →
            0 ≤ (advanceSub rail dt st).pos ∧ (advanceSub rail dt st).pos < rail)) := by
  refine ⟨?_, ?_, ?_⟩
  · intro rail ev dt s hr hpos
    have hpos2 : (constTick rail ev dt s).1.pos =
        wrapPos rail (s.pos + ev.pace_mps * ev.leds_per_meter * dt) := by
      simp only [constTick]
      split <;> rfl
    rw [hpos2]
    exact wrapPos_mem rail _ hr hpos
  · intro rail dt st hr hdone hsplits hpos
    have hpos2 : (advanceSub rail dt st).pos =
        wrapPos rail (st.pos + splitVel st.ev st.metersDone * dt) := by
      simp only [advanceSub, hdone, hsplits]
      simp
    rw [hpos2]
    exact wrapPos_mem rail _ hr hpos
  · intro rail dt st hdone hsplits
    have hpose : (advanceSub rail dt st).pos =
        (compWrap rail st.traversalsNeeded st.traversalsDone
          (st.pos + st.ledsPerSec * dt)).1 := by
      simp only [advanceSub, hdone, hsplits]
      simp
    have htrave : (advanceSub rail dt st).traversalsDone =
        (compWrap rail st.traversalsNeeded st.traversalsDone
          (st.pos + st.ledsPerSec * dt)).2.1 := by
      simp only [advanceSub, hdone, hsplits]
      simp
    have hdonee : (advanceSub rail dt st).done =
        (compWrap rail st.traversalsNeeded st.traversalsDone
          (st.pos + st.ledsPerSec * dt)).2.2 := by
      simp only [advanceSub, hdone, hsplits]
      simp
    constructor
    · rw [hpose, htrave]
      exact compWrap_pos_eq rail _ _ _
    · intro hr htrav hnotdone hpos
      rw [hpose]
      rw [hdonee] at hnotdone
      rw [compWrap_not_done rail _ _ _ htrav hnotdone]
      exact wrapPos_mem rail _ hr hpos

/-- Concrete constant-pace event used by the claim C3 witness. -/
def evC3w : PaceEvent :=
  { distance_m := 1000, rail_leds := 4, target_time_s := 100, laps_m := 4 }

/-- Claim C3, witness: a concrete constant-pace tick lands in [0, rail). -/
theorem c3_position_invariant_witness :
    0 ≤ (constTick 4 evC3w 1 ⟨0, 0⟩).1.pos
    ∧ (constTick 4 evC3w 1 ⟨0, 0⟩).1.pos < ((4 : ℕ) : ℚ) := by
  exact c3_position_invariant.1 4 evC3w 1 ⟨0, 0⟩ (by norm_num)
    (by norm_num [PaceEvent.pace_mps, PaceEvent.leds_per_meter, evC3w])

/-- Concrete split-pace event used by the claim C3 counterexample: 100 m
with a single 1 s split on an 8-LED rail representing 8 m. -/
def evC3 : PaceEvent :=
  { distance_m := 100, rail_leds := 8, target_time_s := 1, laps_m := 8,
    color := (0, 255, 0), trail_len := 0, splits_100 := some [1] }

/-- Claim C3, counterexample: in the single-event split-pace runner the
tracked position is never wrap-normalized — after one tick it is 100, far
above rail_leds = 8, violating the claimed invariant that in every run mode
the position lies in [0, rail_leds) after wrap normalization. -/
theorem c3_counterexample :
    (splitsTick 8 evC3 1 ⟨0, 0⟩).1.pos = 100
    ∧ ((8 : ℕ) : ℚ) ≤ (splitsTick 8 evC3 1 ⟨0, 0⟩).1.pos := by
  have hlpm : evC3.leds_per_meter = 1 := by
    unfold PaceEvent.leds_per_meter evC3
    norm_num
  have hvel : splitVel evC3 0 = 100 := by
    unfold splitVel segIdx
    rw [show evC3.splits_100 = some [1] from rfl, hlpm]
    simp
  have hpos : (splitsTick 8 evC3 1 ⟨0, 0⟩).1.pos = 100 := by
    simp only [splitsTick]
    rw [hvel]
    norm_num
  exact ⟨hpos, by rw [hpos]; norm_num⟩

lemma preAdvance_zero (st : SubState) : preAdvance 0 st = st := by
  unfold preAdvance
  simp

/-- Claim C4 (confirmed): every runner starts at position
start_led mod rail_leds (0 when start_led is unset), with meters_done 0;
one all-zero frame is pushed before the first tick and the measured delay
pre-advances position by delay times the first-segment LED velocity and
meters_done by delay times the first-segment meters-per-second velocity
(constant velocity, or that of the first split in split mode); in the compositor
the guard `if startup_delay > 0` makes the delay-0 case a no-op, which the
unguarded formula also is, and the first pushed frame is the blank one. -/
theorem c4_startup_initialization :
    (∀ (rail : ℕ) (delay : ℚ) (ev : PaceEvent), ev.leds_per_meter ≠ 0 →
      (constInit rail delay ev).1.pos =
        startPos rail ev.start_led + (ev.pace_mps * ev.leds_per_meter) * delay
      ∧ (constInit rail delay ev).1.meters = ev.pace_mps * delay
      ∧ (constInit rail delay ev).2 = List.replicate rail blackRGB)
    ∧ (∀ (rail : ℕ) (delay : ℚ) (ev : PaceEvent) (s0 : ℚ) (rest : List ℚ),
        ev.splits_100 = some (s0 :: rest) → 0 < s0 → ev.leds_per_meter ≠ 0 →
        (splitsInit rail delay ev).1.pos =
          startPos rail ev.start_led + ((100 / s0) * ev.leds_per_meter) * delay
        ∧ (splitsInit rail delay ev).1.meters = (100 / s0) * delay
        ∧ (splitsInit rail delay ev).2 = List.replicate rail blackRGB)
    ∧ (∀ (rail : ℕ) (s : ℤ), 0 < rail →
        startPos rail (some s) = ((s % (rail : ℤ) : ℤ) : ℚ)
        ∧ 0 ≤ startPos rail (some s) ∧ startPos rail (some s) < rail)
    ∧ (∀ rail : ℕ, startPos rail none = 0)
    ∧ (∀ (delay : ℚ) (st : SubState), st.ev.leds_per_meter ≠ 0 → st.useSplits = false →
        (preAdvance delay st).pos = st.pos + st.ledsPerSec * delay
        ∧ (preAdvance delay st).metersDone =
            st.metersDone + (st.ledsPerSec / st.ev.leds_per_meter) * delay)
    ∧ (∀ (delay : ℚ) (st : SubState) (s0 : ℚ) (rest : List ℚ), st.useSplits = true →
        st.ev.splits_100 = some (s0 :: rest) → 0 < s0 → st.ev.leds_per_meter ≠ 0 →
        (preAdvance delay st).pos = st.pos + ((100 / s0) * st.ev.leds_per_meter) * delay
        ∧ (preAdvance delay st).metersDone = st.metersDone + (100 / s0) * delay)
    ∧ (∀ states : List SubState, states.map (preAdvance 0) = states)
    ∧ (∀ (fuel rail : ℕ) (delay : ℚ) (events : List PaceEvent),
        (run_events_parallel fuel rail delay events).runningSet = true →
        (run_events_parallel fuel rail delay events).frames.head? =
          some (List.replicate rail blackRGB)) := by
  refine ⟨?_, ?_, ?_, ?_, ?_, ?_, ?_, ?_⟩
  · intro rail delay ev hlpm
    refine ⟨rfl, ?_, rfl⟩
    show 0 + (ev.pace_mps * ev.leds_per_meter / ev.leds_per_meter) * delay = ev.pace_mps * delay
    rw [mul_div_cancel_right₀ _ hlpm, zero_add]
  · intro rail delay ev s0 rest hsp hs0 hlpm
    have hguard : firstSplitGuard (ev.splits_100.getD []) = s0 := by
      rw [hsp]
      simp [firstSplitGuard, hs0]
    simp only [splitsInit]
    rw [hguard]
    refine ⟨rfl, ?_, trivial⟩
    rw [mul_div_cancel_right₀ _ hlpm, zero_add]
  · intro rail s hr
    have hz : (rail : ℤ) ≠ 0 := by
      exact_mod_cast Nat.pos_iff_ne_zero.mp hr
    have hnn : 0 ≤ s % (rail : ℤ) := Int.emod_nonneg s hz
    have hlt : s % (rail : ℤ) < (rail : ℤ) := Int.emod_lt_of_pos s (by exact_mod_cast hr)
    have hsp : startPos rail (some s) = ((s % (rail : ℤ) : ℤ) : ℚ) := by
      simp [startPos, hr]
    rw [hsp]
    refine ⟨rfl, by exact_mod_cast hnn, by exact_mod_cast hlt⟩
  · intro rail
    rfl
  · intro delay st hlpm hsplits
    unfold preAdvance
    rw [hsplits]
    simp
  · intro delay st s0 rest hsplits hsp hs0 hlpm
    have hguard : firstSplitGuard (st.ev.splits_100.getD []) = s0 := by
      rw [hsp]
      simp [firstSplitGuard, hs0]
    have hcancel : (100 / s0) * st.ev.leds_per_meter / st.ev.leds_per_meter = 100 / s0 :=
      mul_div_cancel_right₀ _ hlpm
    unfold preAdvance
    rw [hsplits, hguard]
    refine ⟨by simp, by simp [hcancel]⟩
  · intro states
    induction states with
    | nil => rfl
    | cons a l ih => simp [preAdvance_zero a, ih]
  · intro fuel rail delay events
    rcases events with _ | ⟨e0, rest⟩
    · intro h
      simp [run_events_parallel] at h
    · intro h
      simp only [run_events_parallel, List.take_succ_cons] at h ⊢
      cases hv : validateEvents rail e0.laps_m (e0 :: List.take 1 rest) with
      | error msg =>
        rw [hv] at h
        simp at h
      | ok u =>
        rw [hv] at h
        cases hb : buildStates rail (e0 :: List.take 1 rest) with
        | nil =>
          rw [hb] at h
          simp at h
        | cons s0 srest =>
          simp

/-- Concrete event used by the claim C4 witness: a mile (1609 m) event with
the fixed mile start LED 191 on a 200-LED rail. -/
def evC4 : PaceEvent :=
  { distance_m := 1609, rail_leds := 200, target_time_s := 240, laps_m := 400,
    start_led := some 191 }

/-- Claim C4, witness at a concrete event and delay. -/
theorem c4_startup_initialization_witness :
    (constInit 200 (1 / 2) evC4).1.meters = evC4.pace_mps * (1 / 2)
    ∧ startPos 200 (some 191) = ((191 % (200 : ℤ) : ℤ) : ℚ) := by
  have h1 := (c4_startup_initialization.1 200 (1 / 2) evC4
    (by norm_num [PaceEvent.leds_per_meter, evC4])).2.1
  have h2 := (c4_startup_initialization.2.2.1 200 191 (by norm_num)).1
  exact ⟨h1, h2⟩

/-- Concrete constant-pace event used by the claim C9 theorems. -/
def evC9 : PaceEvent :=
  { distance_m := 1000, rail_leds := 4, target_time_s := 100, laps_m := 4 }

/-- Concrete split-pace event used by the claim C9 theorems. -/
def evC9s : PaceEvent :=
  { distance_m := 100, rail_leds := 4, target_time_s := 1, laps_m := 4,
    trail_len := 0, splits_100 := some [1] }

/-- Concrete live compositor sub-state used by the claim C9 theorems. -/
def stC9p : SubState :=
  { ev := evC9, ledsPerSec := 10, pos := 0, traversalsNeeded := 250,
    traversalsDone := 0, metersDone := 0, useSplits := false, done := false,
    trailLevels := evC9.precompute_trail }

/-- Claim C9 (amended), covering all three render loops (run_event,
run_event_with_splits, run_events_parallel): a show() (flush) failure
during a tick is caught and logged and the loop proceeds — the tick returns
normally with exactly the same state, frame and termination flag as the
fault-free tick, plus the logged warning; on the constant-pace terminating
tick nothing is pushed, so sink faults are irrelevant there.  A set_pixel
(write) failure during any per-tick push is NOT caught and aborts the run,
in every loop (see also c9_counterexample). -/
theorem c9_sink_fault_handling :
    (∀ (rail : ℕ) (ev : PaceEvent) (dt : ℚ) (s : SState) (b : Bool),
      (constTick rail ev dt s).2.2 = false →
      constTickF rail ev dt s ⟨false, b⟩ =
        Except.ok ((constTick rail ev dt s).1, (constTick rail ev dt s).2.1, false, b))
    ∧ (∀ (rail : ℕ) (ev : PaceEvent) (dt : ℚ) (s : SState) (f : SinkFaults),
      (constTick rail ev dt s).2.2 = true →
      constTickF rail ev dt s f =
        Except.ok ((constTick rail ev dt s).1, none, true, false))
    ∧ (∀ (rail : ℕ) (ev : PaceEvent) (dt : ℚ) (s : SState) (b : Bool),
      (constTick rail ev dt s).2.2 = false →
      constTickF rail ev dt s ⟨true, b⟩ = Except.error ())
    ∧ (∀ (rail : ℕ) (ev : PaceEvent) (dt : ℚ) (s : SState) (b : Bool),
      splitsTickF rail ev dt s ⟨false, b⟩ =
        Except.ok ((splitsTick rail ev dt s).1, (splitsTick rail ev dt s).2.1,
          (splitsTick rail ev dt s).2.2, b))
    ∧ (∀ (rail : ℕ) (ev : PaceEvent) (dt : ℚ) (s : SState) (b : Bool),
      splitsTickF rail ev dt s ⟨true, b⟩ = Except.error ())
    ∧ (∀ (rail : ℕ) (dt : ℚ) (states : List SubState) (b : Bool),
      parTickF rail dt states ⟨false, b⟩ =
        Except.ok ((parTick rail dt states).1, (parTick rail dt states).2.1,
          (parTick rail dt states).2.2, b))
    ∧ (∀ (rail : ℕ) (dt : ℚ) (states : List SubState) (b : Bool),
      parTickF rail dt states ⟨true, b⟩ = Except.error ()) := by
  refine ⟨?_, ?_, ?_, ?_, ?_, ?_, ?_⟩
  · intro rail ev dt s b hterm
    by_cases h : (ev.distance_m : ℚ) ≤
        s.meters + (ev.pace_mps * ev.leds_per_meter / ev.leds_per_meter) * dt
    · exfalso
      simp [constTick, h] at hterm
    · simp [constTick, constTickF, h]
  · intro rail ev dt s f hterm
    by_cases h : (ev.distance_m : ℚ) ≤
        s.meters + (ev.pace_mps * ev.leds_per_meter / ev.leds_per_meter) * dt
    · simp [constTick, constTickF, h]
    · exfalso
      simp [constTick, h] at hterm
  · intro rail ev dt s b hterm
    by_cases h : (ev.distance_m : ℚ) ≤
        s.meters + (ev.pace_mps * ev.leds_per_meter / ev.leds_per_meter) * dt
    · exfalso
      simp [constTick, h] at hterm
    · simp [constTickF, h]
  · intro rail ev dt s b
    rfl
  · intro rail ev dt s b
    rfl
  · intro rail dt states b
    rfl
  · intro rail dt states b
    rfl

/-- Claim C9, witness: in each of the three loops, a concrete tick with a
failing show() still returns ok, with the fault-free state, frame and
termination flag and the warning logged. -/
theorem c9_sink_fault_handling_witness :
    constTickF 4 evC9 1 ⟨0, 0⟩ ⟨false, true⟩ =
      Except.ok ((constTick 4 evC9 1 ⟨0, 0⟩).1,
        (constTick 4 evC9 1 ⟨0, 0⟩).2.1, false, true)
    ∧ splitsTickF 4 evC9s 1 ⟨0, 0⟩ ⟨false, true⟩ =
      Except.ok ((splitsTick 4 evC9s 1 ⟨0, 0⟩).1,
        (splitsTick 4 evC9s 1 ⟨0, 0⟩).2.1, (splitsTick 4 evC9s 1 ⟨0, 0⟩).2.2, true)
    ∧ parTickF 4 1 [stC9p] ⟨false, true⟩ =
      Except.ok ((parTick 4 1 [stC9p]).1, (parTick 4 1 [stC9p]).2.1,
        (parTick 4 1 [stC9p]).2.2, true) := by
  refine ⟨?_, ?_, ?_⟩
  · exact c9_sink_fault_handling.1 4 evC9 1 ⟨0, 0⟩ true
      (by norm_num [constTick, evC9, PaceEvent.pace_mps, PaceEvent.leds_per_meter])
  · exact c9_sink_fault_handling.2.2.2.1 4 evC9s 1 ⟨0, 0⟩ true
  · exact c9_sink_fault_handling.2.2.2.2.2.1 4 1 [stC9p] true

/-- Claim C9, counterexample: the claim says ANY Pixel Sink failure during a
tick — write (set_pixel) or flush (show) — is caught and the loop proceeds,
in every run mode.  The per-pixel setPixelColor loop is outside the try
block in all three render loops (GUI1.py lines 252-253, 318-319, 450-451),
so a set_pixel failure during the per-tick push aborts the run in each of
them instead of being caught and logged. -/
theorem c9_counterexample :
    constTickF 4 evC9 1 ⟨0, 0⟩ ⟨true, false⟩ = Except.error ()
    ∧ (constTick 4 evC9 1 ⟨0, 0⟩).2.2 = false
    ∧ splitsTickF 4 evC9s 1 ⟨0, 0⟩ ⟨true, false⟩ = Except.error ()
    ∧ parTickF 4 1 [stC9p] ⟨true, false⟩ = Except.error () := by
  refine ⟨?_, ?_, rfl, rfl⟩
  · norm_num [constTickF, evC9, PaceEvent.pace_mps, PaceEvent.leds_per_meter]
  · norm_num [constTick, evC9, PaceEvent.pace_mps, PaceEvent.leds_per_meter]

/-- Claim C1 (confirmed): in the compositor, for a constant-pace sub-event the
done flag after a tick is set exactly when its traversal counter has reached
traversals_needed = total_led_traversals = max(1, ceil(distance_m/laps_m)),
and that flag is independent of meters_done; for a split-pace sub-event the done
flag is set exactly when its meters_done has reached distance_m; the
break flag of a tick is precisely "every sub-event was done at the start of
the tick", and once every sub-event is done the loop ends on the next tick. -/
theorem c1_parallel_completion :
    (∀ (rail : ℕ) (dt : ℚ) (states : List SubState),
      (parTick rail dt states).2.2 = states.all (fun st => st.done))
    ∧ (∀ (rail : ℕ) (ev : PaceEvent) (st : SubState), mkSubState rail ev = some st →
        st.traversalsNeeded = max 1 ⌈(ev.distance_m : ℚ) / (ev.laps_m : ℚ)⌉
        ∧ st.done = false)
    ∧ (∀ (rail : ℕ) (dt : ℚ) (st : SubState), st.useSplits = false → st.done = false →
        st.traversalsDone < st.traversalsNeeded →
        ((advanceSub rail dt st).done = true ↔
          st.traversalsNeeded ≤ (advanceSub rail dt st).traversalsDone))
    ∧ (∀ (rail : ℕ) (dt : ℚ) (st : SubState) (m : ℚ), st.useSplits = false →
        (advanceSub rail dt { st with metersDone := m }).done =
          (advanceSub rail dt st).done)
    ∧ (∀ (rail : ℕ) (dt : ℚ) (st : SubState), st.useSplits = true → st.done = false →
        ((advanceSub rail dt st).done = true ↔
          (st.ev.distance_m : ℚ) ≤ (advanceSub rail dt st).metersDone))
    ∧ (∀ (fuel rail : ℕ) (dt : ℚ) (states : List SubState),
        states.all (fun st => st.done) = true →
        (parLoop rail dt (fuel + 1) states).2.2 = true) := by
  refine ⟨?_, ?_, ?_, ?_, ?_, ?_⟩
  · intro rail dt states
    rfl
  · intro rail ev st h
    unfold mkSubState at h
    by_cases hlps : ev.pace_mps * ev.leds_per_meter ≤ 0
    · rw [if_pos hlps] at h
      exact absurd h (by simp)
    · rw [if_neg hlps] at h
      have := Option.some.inj h
      rw [← this]
      exact ⟨rfl, rfl⟩
  · intro rail dt st hsplits hdone htrav
    have hdonee : (advanceSub rail dt st).done =
        (compWrap rail st.traversalsNeeded st.traversalsDone
          (st.pos + st.ledsPerSec * dt)).2.2 := by
      simp [advanceSub, hdone, hsplits]
    have htrave : (advanceSub rail dt st).traversalsDone =
        (compWrap rail st.traversalsNeeded st.traversalsDone
          (st.pos + st.ledsPerSec * dt)).2.1 := by
      simp [advanceSub, hdone, hsplits]
    rw [hdonee, htrave]
    exact compWrap_done_iff rail _ _ _ htrav
  · intro rail dt st m hsplits
    by_cases hdone : st.done
    · simp [advanceSub, hdone]
    · simp [advanceSub, hdone, hsplits]
  · intro rail dt st hsplits hdone
    simp [advanceSub, hdone, hsplits]
  · intro fuel rail dt states h
    simp only [parLoop]
    rw [show (parTick rail dt states).2.2 = true from h]
    simp

/-- Concrete constant-pace event used by the claim C1 witness: 400 m at
10 m/s on a 4-LED rail representing 4 m, needing 100 traversals. -/
def evC1 : PaceEvent :=
  { distance_m := 400, rail_leds := 4, target_time_s := 40, laps_m := 4 }

/-- Concrete constant-pace compositor sub-state for the claim C1 witness. -/
def stC1 : SubState :=
  { ev := evC1, ledsPerSec := 10, pos := 0, traversalsNeeded := 100,
    traversalsDone := 0, metersDone := 0, useSplits := false, done := false,
    trailLevels := [] }

/-- Concrete split-pace compositor sub-state for the claim C1 witness. -/
def stC1s : SubState :=
  { ev := evC1, ledsPerSec := 10, pos := 0, traversalsNeeded := 100,
    traversalsDone := 0, metersDone := 0, useSplits := true, done := false,
    trailLevels := [] }

/-- The sub-state mkSubState builds for evC1 on a 4-LED strip. -/
def stC1m : SubState :=
  { ev := evC1, ledsPerSec := evC1.pace_mps * evC1.leds_per_meter,
    pos := startPos 4 evC1.start_led, traversalsNeeded := evC1.total_led_traversals,
    traversalsDone := 0, metersDone := 0, useSplits := truthySplits evC1.splits_100,
    done := false, trailLevels := evC1.precompute_trail }

/-- Claim C1, witness: the done-flag characterisations at concrete inputs. -/
theorem c1_parallel_completion_witness :
    ((advanceSub 4 1 stC1).done = true ↔
      stC1.traversalsNeeded ≤ (advanceSub 4 1 stC1).traversalsDone)
    ∧ ((advanceSub 4 1 stC1s).done = true ↔
      (stC1s.ev.distance_m : ℚ) ≤ (advanceSub 4 1 stC1s).metersDone)
    ∧ stC1m.traversalsNeeded = max 1 ⌈(evC1.distance_m : ℚ) / (evC1.laps_m : ℚ)⌉
    ∧ (parLoop 4 1 (0 + 1) [{ stC1 with done := true }]).2.2 = true := by
  have hlps : ¬ (evC1.pace_mps * evC1.leds_per_meter ≤ 0) := by
    norm_num [evC1, PaceEvent.pace_mps, PaceEvent.leds_per_meter]
  have hmk : mkSubState 4 evC1 = some stC1m := by
    unfold mkSubState
    rw [if_neg hlps]
    rfl
  refine ⟨?_, ?_, ?_, ?_⟩
  · exact c1_parallel_completion.2.2.1 4 1 stC1 rfl rfl (by norm_num [stC1])
  · exact c1_parallel_completion.2.2.2.2.1 4 1 stC1s rfl rfl
  · exact (c1_parallel_completion.2.1 4 evC1 stC1m hmk).1
  · exact c1_parallel_completion.2.2.2.2.2 0 4 1 [{ stC1 with done := true }] rfl

lemma validateEvents_ok (rail : ℕ) (laps0 : ℤ) :
    ∀ l : List PaceEvent, (∀ ev ∈ l, ev.rail_leds = rail ∧ ev.laps_m = laps0) →
      validateEvents rail laps0 l = Except.ok () := by
  intro l
  induction l with
  | nil => intro _; rfl
  | cons a tail ih =>
    intro h
    obtain ⟨h0, h1⟩ := h a (List.mem_cons_self a tail)
    unfold validateEvents
    rw [if_neg (not_not.mpr h0), if_neg (not_not.mpr h1)]
    exact ih (fun ev hm => h ev (List.mem_cons_of_mem a hm))

/-- Claim C8 (confirmed): a parallel submission of more than two events is
truncated to the first two, and any pair whose rail_leds or laps_m differ is
rejected with a configuration error before anything happens: no frame is
pushed and the running flag is never set.  (The source checks the
rail_leds rail_leds of each event against the pixel count of the strip; two events whose rail_leds differ
cannot both match it, so every differing pair is rejected.) -/
theorem c8_parallel_validation :
    (∀ (fuel rail : ℕ) (delay : ℚ) (e0 e1 : PaceEvent) (rest : List PaceEvent),
      run_events_parallel fuel rail delay (e0 :: e1 :: rest) =
        run_events_parallel fuel rail delay [e0, e1])
    ∧ (∀ (fuel rail : ℕ) (delay : ℚ) (e0 e1 : PaceEvent) (rest : List PaceEvent),
        e0.rail_leds ≠ e1.rail_leds ∨ e0.laps_m ≠ e1.laps_m →
        ∃ msg, run_events_parallel fuel rail delay (e0 :: e1 :: rest) =
          ⟨[], false, Except.error msg⟩) := by
  constructor
  · intro fuel rail delay e0 e1 rest
    rfl
  · intro fuel rail delay e0 e1 rest h
    have key : ∃ msg, validateEvents rail e0.laps_m [e0, e1] = Except.error msg := by
      by_cases h0 : e0.rail_leds = rail
      · by_cases h1 : e1.rail_leds = rail
        · have hlaps : e1.laps_m ≠ e0.laps_m := by
            rcases h with hr | hl
            · exact absurd (h0.trans h1.symm) hr
            · exact fun hx => hl (hx ▸ rfl)
          refine ⟨"All events must use the same lap length to run in parallel.", ?_⟩
          unfold validateEvents
          rw [if_neg (not_not.mpr h0), if_neg (fun hx => hx rfl)]
          unfold validateEvents
          rw [if_neg (not_not.mpr h1), if_pos hlaps]
        · refine ⟨"All events must use the same Rail LEDs to run in parallel.", ?_⟩
          unfold validateEvents
          rw [if_neg (not_not.mpr h0), if_neg (fun hx => hx rfl)]
          unfold validateEvents
          rw [if_pos h1]
      · refine ⟨"All events must use the same Rail LEDs to run in parallel.", ?_⟩
        unfold validateEvents
        rw [if_pos h0]
    obtain ⟨msg, hmsg⟩ := key
    refine ⟨msg, ?_⟩
    simp only [run_events_parallel, List.take_succ_cons, List.take_zero]
    rw [hmsg]

/-- Events used by the claim C8 witness: same rail_leds, different laps_m
(the test case given in the spec). -/
def evC8a : PaceEvent :=
  { distance_m := 400, rail_leds := 200, target_time_s := 60, laps_m := 400 }

/-- Second event of the claim C8 witness pair. -/
def evC8b : PaceEvent :=
  { distance_m := 300, rail_leds := 200, target_time_s := 60, laps_m := 300 }

/-- Claim C8, witness: the concrete mismatched pair is rejected with a
configuration error, zero frames, running flag never set. -/
theorem c8_parallel_validation_witness :
    ∃ msg, run_events_parallel 5 200 0 [evC8a, evC8b] =
      ⟨[], false, Except.error msg⟩ := by
  exact c8_parallel_validation.2 5 200 0 evC8a evC8b []
    (Or.inr (by norm_num [evC8a, evC8b]))

/-- Claim C10 (confirmed): in a parallel run, any sub-event whose derived
constant-pace velocity pace_mps * leds_per_meter is not strictly positive is
silently dropped while building states — with no condition on its splits —
and when every submitted sub-event is dropped the run returns immediately:
no frame pushed, running flag never set, no error raised. -/
theorem c10_zero_velocity_exclusion :
    (∀ (rail : ℕ) (ev : PaceEvent), ev.pace_mps * ev.leds_per_meter ≤ 0 →
      mkSubState rail ev = none)
    ∧ (∀ (fuel rail : ℕ) (delay : ℚ) (e0 : PaceEvent) (rest : List PaceEvent),
        (∀ ev ∈ (e0 :: rest).take 2, ev.rail_leds = rail ∧ ev.laps_m = e0.laps_m
          ∧ ev.pace_mps * ev.leds_per_meter ≤ 0) →
        run_events_parallel fuel rail delay (e0 :: rest) =
          ⟨[], false, Except.ok false⟩) := by
  have part1 : ∀ (rail : ℕ) (ev : PaceEvent), ev.pace_mps * ev.leds_per_meter ≤ 0 →
      mkSubState rail ev = none := by
    intro rail ev h
    unfold mkSubState
    rw [if_pos h]
  refine ⟨part1, ?_⟩
  intro fuel rail delay e0 rest h
  have hval : validateEvents rail e0.laps_m ((e0 :: rest).take 2) = Except.ok () :=
    validateEvents_ok rail e0.laps_m _ (fun ev hm => ⟨(h ev hm).1, (h ev hm).2.1⟩)
  have hbuild : buildStates rail ((e0 :: rest).take 2) = [] := by
    unfold buildStates
    rw [List.filterMap_eq_nil_iff]
    exact fun ev hm => part1 rail ev (h ev hm).2.2
  simp only [run_events_parallel, List.take_succ_cons] at hval hbuild ⊢
  rw [hval, hbuild]

/-- Event used by the claim C10 witness: a valid 8-split 800 m event whose
target_time_s is 0, so its derived constant velocity is 0 and it is
excluded despite the valid splits. -/
def evC10 : PaceEvent :=
  { distance_m := 800, rail_leds := 200, target_time_s := 0, laps_m := 400,
    splits_100 := some [14, 14, 14, 14, 15, 15, 15, 15] }

/-- Claim C10, witness: the concrete zero-velocity split event is dropped
and its singleton parallel run returns immediately with nothing rendered. -/
theorem c10_zero_velocity_exclusion_witness :
    mkSubState 200 evC10 = none
    ∧ run_events_parallel 5 200 0 [evC10] = ⟨[], false, Except.ok false⟩ := by
  have hlps : evC10.pace_mps * evC10.leds_per_meter ≤ 0 := by
    norm_num [evC10, PaceEvent.pace_mps, PaceEvent.leds_per_meter]
  constructor
  · exact c10_zero_velocity_exclusion.1 200 evC10 hlps
  · refine c10_zero_velocity_exclusion.2 5 200 0 evC10 [] ?_
    intro ev hm
    simp at hm
    subst hm
    exact ⟨rfl, rfl, hlps⟩
